import Mathlib

/-!
Verification of the Flap chat backend (src/backend/main.py and
src/backend/web_search_agent.py).

Python strings are modelled as lists of characters (`Str`).  The streamed
upstream lines of the three provider branches of `generate` are modelled as
already-classified lines: a line that does not begin with "data: ", a
"data: " line whose payload is not valid JSON, the literal "data: [DONE]"
sentinel, and a "data: " line whose payload parses to the JSON shape the
branch reads.  The Firestore document store is modelled as an association
list keyed by conversation id.
-/

namespace Flap

/-- Python strings, modelled as lists of characters. -/
abbrev Str := List Char

/-- The character list of a Lean string literal. -/
def str (s : String) : Str := s.data

/-- The whitespace set of Python's str.strip. -/
def isWS (c : Char) : Bool :=
  c = ' ' || c = '\t' || c = '\n' || c = '\r' || c = '\x0b' || c = '\x0c'

/-- Python str.strip: drop leading and trailing whitespace. -/
def pyStrip (l : Str) : Str :=
  ((l.dropWhile isWS).reverse.dropWhile isWS).reverse

/-- Python truthiness of an optional string value: None and "" are falsy. -/
def pyTruthy : Option Str → Bool
  | none => false
  | some s => !s.isEmpty

/-- Decimal rendering, fuel-driven so that it reduces definitionally; the
fuel is always sufficient since n / 10 < n for positive n. -/
def natToStrAux : Nat → Nat → Str
  | 0, _ => []
  | fuel + 1, n =>
      if n < 10 then [Char.ofNat (48 + n)]
      else natToStrAux fuel (n / 10) ++ [Char.ofNat (48 + n % 10)]

/-- Decimal rendering of a natural number, as Python's str(n) / f-string. -/
def natToStr (n : Nat) : Str := natToStrAux (n + 1) n

/-- One client-facing SSE event: the JSON objects yielded by `generate` in
`chat_stream` (src/backend/main.py lines 501-637), as a tagged union. -/
inductive StreamEvent where
  | info (provider : Str) (conversationId : Option Str)
  | content (text : Str)
  | reasoning (text : Str)
  | grokDone (reasoning : Option Str)
  | plainDone
  | errorEv (message : Str)
deriving DecidableEq

/-- The done flag each emitted JSON object carries. -/
def StreamEvent.done : StreamEvent → Bool
  | .info _ _ => false
  | .content _ => false
  | .reasoning _ => false
  | .grokDone _ => true
  | .plainDone => true
  | .errorEv _ => true

/-- The content field of an event, when the event is a content delta. -/
def StreamEvent.contentOf : StreamEvent → Option Str
  | .content t => some t
  | _ => none

/-- The reasoning field of an event, when the event is a reasoning delta. -/
def StreamEvent.reasoningOf : StreamEvent → Option Str
  | .reasoning t => some t
  | _ => none

/-- choices[0].delta of one Grok/OpenAI stream chunk: the two optional
sub-fields the code reads (main.py lines 540-548, 582-586). -/
structure OAIDelta where
  reasoning : Option Str
  content : Option Str
deriving DecidableEq

/-- One upstream line of the Grok/OpenAI SSE stream, classified as the code
classifies it: not "data: "-prefixed, "data: " with unparseable JSON,
the "data: [DONE]" sentinel, or "data: " with a parsed chunk. -/
inductive OAILine where
  | noData
  | malformed
  | doneSentinel
  | chunk (delta : OAIDelta)
deriving DecidableEq

/-- candidates[0] of one Gemini stream chunk: parts[0].get("text", "") and
the optional finishReason field (main.py lines 616-625). -/
structure GemCand where
  text : Str
  finishReason : Option Str
deriving DecidableEq

/-- One Gemini stream chunk: the optional candidates field. -/
structure GemChunk where
  candidates : Option GemCand
deriving DecidableEq

/-- One upstream line of the Gemini SSE stream.  Gemini has no [DONE]
sentinel: such a payload would fail JSON parsing and be skipped. -/
inductive GemLine where
  | noData
  | malformed
  | chunk (c : GemChunk)
deriving DecidableEq

/-- The Grok streaming loop (main.py lines 529-551): state is the
accumulated reasoning and the accumulated full response; returns the events
yielded and the final full_response. -/
def grokRun : Str → Str → List OAILine → List StreamEvent × Str
  | _, fAcc, [] => ([], fAcc)
  | rAcc, fAcc, .noData :: rest => grokRun rAcc fAcc rest
  | rAcc, fAcc, .malformed :: rest => grokRun rAcc fAcc rest
  | rAcc, fAcc, .doneSentinel :: _ =>
      ([.grokDone (if rAcc = [] then none else some rAcc)], fAcc)
  | rAcc, fAcc, .chunk d :: rest =>
      let rStep : List StreamEvent × Str :=
        match d.reasoning with
        | some r => if r ≠ [] then ([.reasoning r], rAcc ++ r) else ([], rAcc)
        | none => ([], rAcc)
      let cStep : List StreamEvent × Str :=
        match d.content with
        | some c => if c ≠ [] then ([.content c], fAcc ++ c) else ([], fAcc)
        | none => ([], fAcc)
      let rec' := grokRun rStep.2 cStep.2 rest
      (rStep.1 ++ cStep.1 ++ rec'.1, rec'.2)

/-- The OpenAI streaming loop (main.py lines 573-589): only content deltas. -/
def openaiRun : Str → List OAILine → List StreamEvent × Str
  | fAcc, [] => ([], fAcc)
  | fAcc, .noData :: rest => openaiRun fAcc rest
  | fAcc, .malformed :: rest => openaiRun fAcc rest
  | fAcc, .doneSentinel :: _ => ([.plainDone], fAcc)
  | fAcc, .chunk d :: rest =>
      match d.content with
      | some c =>
          if c ≠ [] then
            let rec' := openaiRun (fAcc ++ c) rest
            (.content c :: rec'.1, rec'.2)
          else openaiRun fAcc rest
      | none => openaiRun fAcc rest

/-- The Gemini streaming loop (main.py lines 609-630): state is
previous_text and full_response; Gemini frames are cumulative, the code
emits the suffix past the previously seen text. -/
def gemRun : Str → Str → List GemLine → List StreamEvent × Str
  | _, fAcc, [] => ([], fAcc)
  | prev, fAcc, .noData :: rest => gemRun prev fAcc rest
  | prev, fAcc, .malformed :: rest => gemRun prev fAcc rest
  | prev, fAcc, .chunk ch :: rest =>
      match ch.candidates with
      | none => gemRun prev fAcc rest
      | some cand =>
          let t := cand.text
          let step : List StreamEvent × Str × Str :=
            if t ≠ [] ∧ t ≠ prev then
              let d := t.drop prev.length
              if d ≠ [] then ([.content d], t, fAcc ++ d) else ([], t, fAcc)
            else ([], prev, fAcc)
          if pyTruthy cand.finishReason then (step.1 ++ [.plainDone], step.2.2)
          else
            let rec' := gemRun step.2.1 step.2.2 rest
            (step.1 ++ rec'.1, rec'.2)

/-- The detail string of the HTTPException each call_* helper raises on a
non-success provider status (main.py lines 139-141, 179-181, 231-233). -/
def apiErrorDetail (p : Str) : Str :=
  if p = str "grok" then str "Grok API error"
  else if p = str "openai" then str "OpenAI API error"
  else str "Gemini API error"

/-- The Grok branch of `generate`, status check included (lines 525-527). -/
def grokBranch (status : Nat) (lines : List OAILine) : List StreamEvent × Str :=
  if status ≠ 200 then ([.errorEv (str "API error: " ++ natToStr status)], [])
  else grokRun [] [] lines

/-- The OpenAI branch of `generate`, status check included (lines 569-571). -/
def openaiBranch (status : Nat) (lines : List OAILine) : List StreamEvent × Str :=
  if status ≠ 200 then ([.errorEv (str "API error: " ++ natToStr status)], [])
  else openaiRun [] lines

/-- The Gemini branch of `generate`, status check included (lines 605-607). -/
def geminiBranch (status : Nat) (lines : List GemLine) : List StreamEvent × Str :=
  if status ≠ 200 then ([.errorEv (str "API error: " ++ natToStr status)], [])
  else gemRun [] [] lines

/-- The whole `generate` generator of `chat_stream`: the leading
provider/conversation announcement followed by the selected provider's
branch; returns the events and the accumulated full_response. -/
def generateEvents (provider : Str) (cid : Option Str) (status : Nat)
    (oai : List OAILine) (gem : List GemLine) : List StreamEvent × Str :=
  let branch : List StreamEvent × Str :=
    if provider = str "grok" then grokBranch status oai
    else if provider = str "openai" then openaiBranch status oai
    else if provider = str "gemini" then geminiBranch status gem
    else ([], [])
  (.info provider cid :: branch.1, branch.2)

/-- One persisted message record (save_message_to_history, lines 250-255). -/
structure MessageRec where
  role : Str
  content : Str
  provider : Option Str
deriving DecidableEq

/-- The metadata and message subcollection of one conversation document.
The title is optional: a document upserted by a metadata merge has none. -/
structure ConvMeta where
  title : Option Str
  lastMessage : Str
  messageCount : Nat
  messages : List MessageRec
deriving DecidableEq

/-- The conversation store of one user: Firestore's per-user conversations
collection, as an association list, plus the id-generation counter. -/
structure Store where
  nextId : Nat
  convs : List (Str × ConvMeta)
deriving DecidableEq

/-- Modelled from the spec: the document store's `create(path, doc) -> id`
(an external collaborator, §6) returns a fresh opaque document id on every
call; modelled as an injective function of the store's creation counter. -/
def freshId (n : Nat) : Str := 'c' :: List.replicate n 'x'

/-- Look a conversation document up by id. -/
def lookupConv (c : Str) : List (Str × ConvMeta) → Option ConvMeta
  | [] => none
  | (k, m) :: rest => if k = c then some m else lookupConv c rest

/-- Append a message to a conversation and merge the metadata update of
save_message_to_history (lines 258-266): last_message is the first 100
characters, message_count is incremented atomically.  A merge-set on an
id with no document creates the document, as Firestore does. -/
def updateConv (c : Str) (rec : MessageRec) :
    List (Str × ConvMeta) → List (Str × ConvMeta)
  | [] => [(c, ⟨none, rec.content.take 100, 1, [rec]⟩)]
  | (k, m) :: rest =>
      if k = c then
        (k, { m with
                lastMessage := rec.content.take 100,
                messageCount := m.messageCount + 1,
                messages := m.messages ++ [rec] }) :: rest
      else (k, m) :: updateConv c rec rest

/-- save_message_to_history (main.py lines 243-271), success path. -/
def save_message_to_history (s : Store) (c : Str) (role content : Str)
    (provider : Option Str) : Store :=
  { s with convs := updateConv c ⟨role, content, provider⟩ s.convs }

/-- The conversation title derived from the first message: the first 50
characters plus an ellipsis when truncated (main.py line 281). -/
def mkTitle (msg : Str) : Str :=
  if msg.length > 50 then msg.take 50 ++ str "..." else msg

/-- create_conversation (main.py lines 273-296), success path: a fresh
document with the derived title and zero message count is appended and
its id returned. -/
def create_conversation (s : Store) (msg : Str) : Option Str × Store :=
  let id := freshId s.nextId
  (some id,
   { nextId := s.nextId + 1,
     convs := s.convs ++ [(id, ⟨some (mkTitle msg), msg.take 100, 0, []⟩)] })

/-- The body of a chat request (ChatRequest, main.py lines 70-73). -/
structure ChatRequest where
  message : Str
  conversationHistory : List (Str × Str)
  conversationId : Option Str
deriving DecidableEq

/-- The body of a non-streaming chat response (ChatResponse, lines 75-81). -/
structure ChatResponse where
  response : Str
  success : Bool
  error : Option Str
  reasoning : Option Str
  provider : Option Str
  conversationId : Option Str
deriving DecidableEq

/-- An HTTP-level error: an HTTPException status and detail raised out of
an endpoint (as opposed to a 200-shaped response body). -/
structure HTTPErr where
  status : Nat
  detail : Str
deriving DecidableEq

/-- random.choice over the registry, with the randomness abstracted as an
arbitrary trial index reduced modulo the registry size. -/
def pickProvider (providers : List Str) (k : Nat) : Str :=
  providers.getD (k % providers.length) []

/-- select_random_provider (main.py lines 236-240): HTTP 500 when no
provider is configured, otherwise a uniform random registry element. -/
def select_random_provider (providers : List Str) (k : Nat) :
    Except HTTPErr Str :=
  if providers = [] then .error ⟨500, str "No AI providers configured"⟩
  else .ok (pickProvider providers k)

/-- Lines 359-361 and 463-465: take the request's conversation id when
truthy, otherwise create a conversation keyed off the first user message. -/
def resolve_conversation (req : ChatRequest) (s : Store) :
    Option Str × Store :=
  if pyTruthy req.conversationId then (req.conversationId, s)
  else create_conversation s req.message

/-- Persist the user message when a conversation id is present
(lines 383-384 and 468-469). -/
def persist_user (cid : Option Str) (msg : Str) (s : Store) : Store :=
  match cid with
  | some c => if c ≠ [] then save_message_to_history s c (str "user") msg none else s
  | none => s

/-- Persist the assembled assistant text after streaming completes, only
when both the conversation id and the accumulated text are truthy
(main.py lines 635-637). -/
def persist_assistant (cid : Option Str) (full : Str) (provider : Str)
    (s : Store) : Store :=
  match cid with
  | some c =>
      if c ≠ [] ∧ full ≠ [] then
        save_message_to_history s c (str "assistant") full (some provider)
      else s
  | none => s

/-- The upstream outcome of one non-streaming provider call: an HTTP
response with a status and parsed body, a client-side timeout, or a
transport error. -/
inductive UpstreamResult where
  | response (status : Nat) (text : Str) (reasoning : Option Str)
  | timeout
  | netError (msg : Str)
deriving DecidableEq

/-- What the call_grok / call_openai / call_gemini helpers do with the
upstream outcome: raise HTTPException(status, detail) on a non-200 status
(lines 139-141, 179-181, 231-233), propagate timeout and transport errors,
otherwise return the parsed message (reasoning only surfaced for Grok,
lines 387-402). -/
inductive CallOutcome where
  | ok (text : Str) (reasoning : Option Str)
  | httpExc (status : Nat) (detail : Str)
  | timeoutExc
  | netExc (msg : Str)
deriving DecidableEq

def call_provider (p : Str) (u : UpstreamResult) : CallOutcome :=
  match u with
  | .response st text rsn =>
      if st ≠ 200 then .httpExc st (apiErrorDetail p)
      else .ok text (if p = str "grok" then rsn else none)
  | .timeout => .timeoutExc
  | .netError m => .netExc m

/-- str(e) for a starlette HTTPException: "status: detail". -/
def httpExcStr (status : Nat) (detail : Str) : Str :=
  natToStr status ++ str ": " ++ detail

/-- The body of the /api/chat endpoint past the registry check (main.py
lines 355-439): select a provider, resolve the conversation id, persist
the user message, call the provider, and map every raised exception to a
200-shaped ChatResponse via the endpoint's except clauses. -/
def chat_run (providers : List Str) (k : Nat) (req : ChatRequest) (s : Store)
    (u : UpstreamResult) : ChatResponse × Store :=
  let provider := pickProvider providers k
  let rc := resolve_conversation req s
  let s2 := persist_user rc.1 req.message rc.2
  match call_provider provider u with
  | .ok text rsn =>
      let s3 := persist_assistant rc.1 text provider s2
      (⟨text, true, none, rsn, some provider, rc.1⟩, s3)
  | .httpExc st d =>
      (⟨[], false, some (str "An error occurred: " ++ httpExcStr st d),
        none, some provider, rc.1⟩, s2)
  | .timeoutExc =>
      (⟨[], false, some (str "Request timeout. Please try again."),
        none, some provider, rc.1⟩, s2)
  | .netExc m =>
      (⟨[], false, some (str "Network error: " ++ m),
        none, some provider, rc.1⟩, s2)

/-- The /api/chat endpoint (main.py lines 336-439): an HTTP 500 when no
provider is configured, otherwise always a structured ChatResponse. -/
def chat (providers : List Str) (k : Nat) (req : ChatRequest) (s : Store)
    (u : UpstreamResult) : Except HTTPErr (ChatResponse × Store) :=
  if providers = [] then
    .error ⟨500, str "No AI providers configured. Please set API keys in environment variables."⟩
  else .ok (chat_run providers k req s u)

/-- The body of the /api/chat/stream endpoint past the registry check
(main.py lines 459-647): resolve the conversation id, persist the user
message, run `generate`, and persist the accumulated assistant text when
non-empty. -/
def chat_stream_run (providers : List Str) (k : Nat) (req : ChatRequest)
    (s : Store) (status : Nat) (oai : List OAILine) (gem : List GemLine) :
    List StreamEvent × Store :=
  let provider := pickProvider providers k
  let rc := resolve_conversation req s
  let s2 := persist_user rc.1 req.message rc.2
  let g := generateEvents provider rc.1 status oai gem
  (g.1, persist_assistant rc.1 g.2 provider s2)

/-- The /api/chat/stream endpoint (main.py lines 441-647). -/
def chat_stream (providers : List Str) (k : Nat) (req : ChatRequest)
    (s : Store) (status : Nat) (oai : List OAILine) (gem : List GemLine) :
    Except HTTPErr (List StreamEvent × Store) :=
  if providers = [] then .error ⟨500, str "No AI providers configured"⟩
  else .ok (chat_stream_run providers k req s status oai gem)

/-- The events delivered to the client by a run of the streaming endpoint
(none when the endpoint rejects the request at HTTP level). -/
def eventsOf : Except HTTPErr (List StreamEvent × Store) → List StreamEvent
  | .ok (evs, _) => evs
  | .error _ => []

/-! ### Provider selection (C4) and the non-streaming chat path (C5, C6) -/

/-- Claim C4: the provider selector fails with a 500-level
NoProviderConfigured error when the registry is empty; otherwise it returns
an element of the registry; with exactly one configured provider it returns
that provider on every trial. -/
theorem select_random_provider_spec :
    (∀ k, select_random_provider [] k =
        .error ⟨500, str "No AI providers configured"⟩) ∧
    (∀ (providers : List Str) (k : Nat) (r : Str),
       select_random_provider providers k = .ok r → r ∈ providers) ∧
    (∀ (p : Str) (k : Nat), select_random_provider [p] k = .ok p) := by
  refine ⟨fun k => rfl, ?_, ?_⟩
  · intro providers k r h
    by_cases hp : providers = []
    · subst hp; simp [select_random_provider] at h
    · simp only [select_random_provider, if_neg hp, Except.ok.injEq] at h
      have hlt : k % providers.length < providers.length :=
        Nat.mod_lt _ (List.length_pos.mpr hp)
      rw [← h]
      simp only [pickProvider, List.getD_eq_getElem?_getD,
        List.getElem?_eq_getElem hlt, Option.getD_some]
      exact List.getElem_mem hlt
  · intro p k
    simp [select_random_provider, pickProvider, Nat.mod_one]

/-- Witness for C4 at concrete inputs. -/
theorem select_random_provider_witness :
    select_random_provider [str "grok"] 7 = .ok (str "grok") ∧
    select_random_provider [] 3 =
      .error ⟨500, str "No AI providers configured"⟩ :=
  ⟨select_random_provider_spec.2.2 (str "grok") 7,
   select_random_provider_spec.1 3⟩

/-- Claim C5 counterexample: a provider 503 on the non-streaming chat path
is returned as a 200-shaped {success:false, error} body — the
HTTPException raised by the call helper is swallowed by the endpoint's
generic except clause — and not surfaced as an HTTP-level error carrying
the provider's status. -/
theorem chat_upstream_error_is_200_shaped :
    chat [str "grok"] 0 ⟨str "q", [], none⟩ ⟨0, []⟩ (.response 503 [] none) =
      .ok (chat_run [str "grok"] 0 ⟨str "q", [], none⟩ ⟨0, []⟩
            (.response 503 [] none)) ∧
    (chat_run [str "grok"] 0 ⟨str "q", [], none⟩ ⟨0, []⟩
        (.response 503 [] none)).1.success = false ∧
    (chat_run [str "grok"] 0 ⟨str "q", [], none⟩ ⟨0, []⟩
        (.response 503 [] none)).1.error =
      some (str "An error occurred: 503: Grok API error") := by
  exact ⟨rfl, rfl, by decide⟩

/-- Claim C5 (amended): when the selected provider answers a non-success
HTTP status on the non-streaming path, the endpoint catches the raised
HTTPException in its generic except clause and returns a 200-shaped
{success:false, error} body whose message embeds the provider's status; it
is never surfaced as an HTTP-level error. -/
theorem chat_upstream_error_200_shaped (providers : List Str) (k : Nat)
    (req : ChatRequest) (s : Store) (st : Nat) (text : Str)
    (rsn : Option Str) (hp : providers ≠ []) (hst : st ≠ 200) :
    chat providers k req s (.response st text rsn) =
      .ok (chat_run providers k req s (.response st text rsn)) ∧
    (chat_run providers k req s (.response st text rsn)).1.success = false ∧
    (chat_run providers k req s (.response st text rsn)).1.error =
      some (str "An error occurred: " ++
        httpExcStr st (apiErrorDetail (pickProvider providers k))) := by
  refine ⟨by simp [chat, hp], ?_, ?_⟩ <;>
    simp [chat_run, call_provider, hst]

/-- Witness for the amended C5 at concrete inputs. -/
theorem chat_upstream_error_200_shaped_witness :
    chat [str "openai"] 0 ⟨str "q", [], none⟩ ⟨0, []⟩ (.response 429 [] none) =
      .ok (chat_run [str "openai"] 0 ⟨str "q", [], none⟩ ⟨0, []⟩
            (.response 429 [] none)) ∧
    (chat_run [str "openai"] 0 ⟨str "q", [], none⟩ ⟨0, []⟩
        (.response 429 [] none)).1.success = false ∧
    (chat_run [str "openai"] 0 ⟨str "q", [], none⟩ ⟨0, []⟩
        (.response 429 [] none)).1.error =
      some (str "An error occurred: " ++
        httpExcStr 429 (apiErrorDetail (pickProvider [str "openai"] 0))) :=
  chat_upstream_error_200_shaped [str "openai"] 0 ⟨str "q", [], none⟩ ⟨0, []⟩
    429 [] none (by decide) (by decide)

/-- Claim C6 counterexample: on a provider timeout the non-streaming
endpoint's error field is the full message "Request timeout. Please try
again.", not the literal string "timeout". -/
theorem chat_timeout_error_string :
    (chat_run [str "grok"] 0 ⟨str "q", [], none⟩ ⟨0, []⟩ .timeout).1.error =
      some (str "Request timeout. Please try again.") ∧
    str "Request timeout. Please try again." ≠ str "timeout" := by
  exact ⟨rfl, by decide⟩

/-- Claim C6 (amended): when the provider call exceeds the client-side
deadline, the non-streaming endpoint never throws: it returns a structured
ChatResponse with success=false and the timeout error message
"Request timeout. Please try again.". -/
theorem chat_timeout_structured (providers : List Str) (k : Nat)
    (req : ChatRequest) (s : Store) (hp : providers ≠ []) :
    chat providers k req s .timeout =
      .ok (chat_run providers k req s .timeout) ∧
    (chat_run providers k req s .timeout).1.success = false ∧
    (chat_run providers k req s .timeout).1.error =
      some (str "Request timeout. Please try again.") := by
  refine ⟨by simp [chat, hp], ?_, ?_⟩ <;>
    simp [chat_run, call_provider]

/-- Witness for the amended C6 at concrete inputs. -/
theorem chat_timeout_structured_witness :
    chat [str "gemini"] 2 ⟨str "q", [], none⟩ ⟨0, []⟩ .timeout =
      .ok (chat_run [str "gemini"] 2 ⟨str "q", [], none⟩ ⟨0, []⟩ .timeout) ∧
    (chat_run [str "gemini"] 2 ⟨str "q", [], none⟩ ⟨0, []⟩
        .timeout).1.success = false ∧
    (chat_run [str "gemini"] 2 ⟨str "q", [], none⟩ ⟨0, []⟩
        .timeout).1.error =
      some (str "Request timeout. Please try again.") :=
  chat_timeout_structured [str "gemini"] 2 ⟨str "q", [], none⟩ ⟨0, []⟩
    (by decide)

/-! ### Conversation identity (C3) and streaming persistence (C9) -/

lemma nextId_save (s : Store) (c : Str) (role content : Str)
    (p : Option Str) :
    (save_message_to_history s c role content p).nextId = s.nextId := rfl

lemma nextId_persist_user (cid : Option Str) (msg : Str) (s : Store) :
    (persist_user cid msg s).nextId = s.nextId := by
  cases cid with
  | none => rfl
  | some c => simp only [persist_user]; split <;> rfl

lemma nextId_persist_assistant (cid : Option Str) (full : Str)
    (provider : Str) (s : Store) :
    (persist_assistant cid full provider s).nextId = s.nextId := by
  cases cid with
  | none => rfl
  | some c => simp only [persist_assistant]; split <;> rfl

lemma nextId_chat_stream_run (providers : List Str) (k : Nat)
    (req : ChatRequest) (s : Store) (status : Nat) (oai : List OAILine)
    (gem : List GemLine) :
    (chat_stream_run providers k req s status oai gem).2.nextId =
      (resolve_conversation req s).2.nextId := by
  simp [chat_stream_run, nextId_persist_assistant, nextId_persist_user]

lemma freshId_injective {n m : Nat} (h : freshId n = freshId m) : n = m := by
  have := congrArg List.length h
  simpa [freshId] using this

/-- Claim C3 (amended): a request with no conversation_id gets a fresh
conversation created before dispatch, announced in the first StreamEvent
(resp. returned in the ChatResponse); two such calls in sequence never
reuse an id; a request with an explicit non-empty conversation_id never
creates a conversation — but an explicit empty-string id is falsy in
Python and does trigger creation. -/
theorem conversation_identity :
    (∀ (providers : List Str) (k : Nat) (req : ChatRequest) (s : Store)
       (status : Nat) (oai : List OAILine) (gem : List GemLine),
       req.conversationId = none →
         (chat_stream_run providers k req s status oai gem).1.head? =
           some (.info (pickProvider providers k) (some (freshId s.nextId))) ∧
         (chat_stream_run providers k req s status oai gem).2.nextId =
           s.nextId + 1) ∧
    (∀ (providers : List Str) (k : Nat) (req req' : ChatRequest) (s : Store)
       (status : Nat) (oai : List OAILine) (gem : List GemLine),
       req.conversationId = none → req'.conversationId = none →
         (resolve_conversation req s).1 ≠
           (resolve_conversation req'
             (chat_stream_run providers k req s status oai gem).2).1) ∧
    (∀ (providers : List Str) (k : Nat) (req : ChatRequest) (s : Store)
       (status : Nat) (oai : List OAILine) (gem : List GemLine) (c : Str),
       req.conversationId = some c → c ≠ [] →
         (chat_stream_run providers k req s status oai gem).1.head? =
           some (.info (pickProvider providers k) (some c)) ∧
         (chat_stream_run providers k req s status oai gem).2.nextId =
           s.nextId) ∧
    (∀ (providers : List Str) (k : Nat) (req : ChatRequest) (s : Store)
       (u : UpstreamResult),
       req.conversationId = none →
         (chat_run providers k req s u).1.conversationId =
           some (freshId s.nextId) ∧
         (chat_run providers k req s u).2.nextId = s.nextId + 1) ∧
    (∀ (providers : List Str) (k : Nat) (req : ChatRequest) (s : Store)
       (u : UpstreamResult) (c : Str),
       req.conversationId = some c → c ≠ [] →
         (chat_run providers k req s u).1.conversationId = some c ∧
         (chat_run providers k req s u).2.nextId = s.nextId) := by
  have hres_none : ∀ (req : ChatRequest) (s : Store),
      req.conversationId = none →
      resolve_conversation req s = create_conversation s req.message := by
    intro req s h
    simp [resolve_conversation, pyTruthy, h]
  have hres_some : ∀ (req : ChatRequest) (s : Store) (c : Str),
      req.conversationId = some c → c ≠ [] →
      resolve_conversation req s = (some c, s) := by
    intro req s c h hc
    simp [resolve_conversation, pyTruthy, h, List.isEmpty_iff, hc]
  refine ⟨?_, ?_, ?_, ?_, ?_⟩
  · intro providers k req s status oai gem h
    constructor
    · simp [chat_stream_run, hres_none req s h, create_conversation,
        generateEvents]
    · rw [nextId_chat_stream_run, hres_none req s h]
      rfl
  · intro providers k req req' s status oai gem h h'
    have h1 := hres_none req s h
    have h2 := hres_none req'
      (chat_stream_run providers k req s status oai gem).2 h'
    rw [h1, h2]
    have hnext : (chat_stream_run providers k req s status oai gem).2.nextId
        = s.nextId + 1 := by
      rw [nextId_chat_stream_run, hres_none req s h]
      rfl
    simp only [create_conversation, hnext, ne_eq, Option.some.injEq]
    intro he
    exact absurd (freshId_injective he) (by omega)
  · intro providers k req s status oai gem c h hc
    constructor
    · simp [chat_stream_run, hres_some req s c h hc, generateEvents]
    · rw [nextId_chat_stream_run, hres_some req s c h hc]
  · intro providers k req s u h
    have h1 := hres_none req s h
    have hcid : (resolve_conversation req s).1 = some (freshId s.nextId) := by
      rw [h1]; rfl
    have hnext : (resolve_conversation req s).2.nextId = s.nextId + 1 := by
      rw [h1]; rfl
    constructor
    · simp only [chat_run]
      cases call_provider (pickProvider providers k) u <;> simp [hcid]
    · simp only [chat_run]
      cases call_provider (pickProvider providers k) u <;>
        simp [nextId_persist_assistant, nextId_persist_user, hnext]
  · intro providers k req s u c h hc
    have h1 := hres_some req s c h hc
    constructor
    · simp only [chat_run]
      cases call_provider (pickProvider providers k) u <;> simp [h1]
    · simp only [chat_run]
      cases call_provider (pickProvider providers k) u <;>
        simp [nextId_persist_assistant, nextId_persist_user, h1]

/-- Witness for the amended C3 at concrete inputs. -/
theorem conversation_identity_witness :
    ((chat_stream_run [str "grok"] 0 ⟨str "q", [], none⟩ ⟨0, []⟩ 200 []
        []).1.head? =
      some (.info (pickProvider [str "grok"] 0) (some (freshId 0))) ∧
     (chat_stream_run [str "grok"] 0 ⟨str "q", [], none⟩ ⟨0, []⟩ 200 []
        []).2.nextId = 0 + 1) ∧
    ((chat_stream_run [str "grok"] 0 ⟨str "m", [], some (str "abc")⟩ ⟨5, []⟩
        200 [] []).1.head? =
      some (.info (pickProvider [str "grok"] 0) (some (str "abc"))) ∧
     (chat_stream_run [str "grok"] 0 ⟨str "m", [], some (str "abc")⟩ ⟨5, []⟩
        200 [] []).2.nextId = 5) :=
  ⟨conversation_identity.1 [str "grok"] 0 ⟨str "q", [], none⟩ ⟨0, []⟩ 200 []
     [] rfl,
   conversation_identity.2.2.1 [str "grok"] 0 ⟨str "m", [], some (str "abc")⟩
     ⟨5, []⟩ 200 [] [] (str "abc") rfl (by decide)⟩

/-- Claim C3 counterexample: a request carrying the explicit conversation
id "" still creates a new conversation — the creation counter advances and
a fresh id, not "", is announced in the first event. -/
theorem empty_conversation_id_creates :
    (chat_stream_run [str "grok"] 0 ⟨str "q", [], some []⟩ ⟨0, []⟩ 200 []
       []).2.nextId = 1 ∧
    (chat_stream_run [str "grok"] 0 ⟨str "q", [], some []⟩ ⟨0, []⟩ 200 []
       []).1.head? = some (.info (str "grok") (some (freshId 0))) := by
  exact ⟨rfl, rfl⟩

lemma updateConv_append_fresh {c : Str} {rec : MessageRec}
    {l : List (Str × ConvMeta)} {m : ConvMeta}
    (h : lookupConv c l = none) :
    updateConv c rec (l ++ [(c, m)]) =
      l ++ [(c, ⟨m.title, rec.content.take 100, m.messageCount + 1,
                 m.messages ++ [rec]⟩)] := by
  induction l with
  | nil => simp [updateConv]
  | cons p rest ih =>
      obtain ⟨k, m'⟩ := p
      by_cases hk : k = c
      · simp [lookupConv, hk] at h
      · simp only [lookupConv, if_neg hk] at h
        simp [updateConv, hk, ih h]

lemma lookupConv_append_fresh {c : Str} {l : List (Str × ConvMeta)}
    {m : ConvMeta} (h : lookupConv c l = none) :
    lookupConv c (l ++ [(c, m)]) = some m := by
  induction l with
  | nil => simp [lookupConv]
  | cons p rest ih =>
      obtain ⟨k, m'⟩ := p
      by_cases hk : k = c
      · simp [lookupConv, hk] at h
      · simp only [lookupConv, if_neg hk] at h
        simp [lookupConv, hk, ih h]

/-- Claim C9: when the accumulated assistant text of a streaming run is
empty, no assistant message is persisted: the final store is exactly the
store after the user-message write, and on the fresh-conversation path the
conversation document holds only the user message (message_count 1,
last_message the user message's first 100 characters). -/
theorem stream_empty_response_not_persisted (providers : List Str)
    (k : Nat) (req : ChatRequest) (s : Store) (status : Nat)
    (oai : List OAILine) (gem : List GemLine)
    (hfull : (generateEvents (pickProvider providers k)
                (resolve_conversation req s).1 status oai gem).2 = []) :
    (chat_stream_run providers k req s status oai gem).2 =
      persist_user (resolve_conversation req s).1 req.message
        (resolve_conversation req s).2 ∧
    (req.conversationId = none →
      lookupConv (freshId s.nextId) s.convs = none →
      lookupConv (freshId s.nextId)
        (chat_stream_run providers k req s status oai gem).2.convs =
        some ⟨some (mkTitle req.message), req.message.take 100, 1,
              [⟨str "user", req.message, none⟩]⟩) := by
  have hmain : (chat_stream_run providers k req s status oai gem).2 =
      persist_user (resolve_conversation req s).1 req.message
        (resolve_conversation req s).2 := by
    simp only [chat_stream_run, hfull]
    cases hc : (resolve_conversation req s).1 with
    | none => rfl
    | some c => simp [persist_assistant]
  refine ⟨hmain, ?_⟩
  intro hnone hfresh
  rw [hmain]
  have hres : resolve_conversation req s =
      create_conversation s req.message := by
    simp [resolve_conversation, pyTruthy, hnone]
  rw [hres]
  simp only [create_conversation, persist_user]
  rw [if_pos (by simp [freshId])]
  simp only [save_message_to_history]
  rw [updateConv_append_fresh hfresh]
  exact lookupConv_append_fresh hfresh

/-- Witness for C9 at concrete inputs: a Grok stream that carries only a
reasoning delta and no content leaves the conversation with just the
persisted user message. -/
theorem stream_empty_response_not_persisted_witness :
    (chat_stream_run [str "grok"] 0 ⟨str "q", [], none⟩ ⟨0, []⟩ 200
       [.chunk ⟨some (str "thinking"), none⟩, .doneSentinel] []).2 =
      persist_user
        (resolve_conversation ⟨str "q", [], none⟩ ⟨0, []⟩).1 (str "q")
        (resolve_conversation ⟨str "q", [], none⟩ ⟨0, []⟩).2 ∧
    ((⟨str "q", [], none⟩ : ChatRequest).conversationId = none →
      lookupConv (freshId 0) ([] : List (Str × ConvMeta)) = none →
      lookupConv (freshId 0)
        (chat_stream_run [str "grok"] 0 ⟨str "q", [], none⟩ ⟨0, []⟩ 200
          [.chunk ⟨some (str "thinking"), none⟩, .doneSentinel] []).2.convs =
        some ⟨some (mkTitle (str "q")), (str "q").take 100, 1,
              [⟨str "user", str "q", none⟩]⟩) :=
  stream_empty_response_not_persisted [str "grok"] 0 ⟨str "q", [], none⟩
    ⟨0, []⟩ 200 [.chunk ⟨some (str "thinking"), none⟩, .doneSentinel] []
    (by decide)

/-! ### Malformed-line skipping (C7) -/

lemma grokRun_malformed (pre : List OAILine) : ∀ (rAcc fAcc : Str)
    (post : List OAILine),
    grokRun rAcc fAcc (pre ++ .malformed :: post) =
      grokRun rAcc fAcc (pre ++ post) := by
  induction pre with
  | nil => intro rAcc fAcc post; rfl
  | cons l rest ih =>
      intro rAcc fAcc post
      cases l with
      | noData => simpa only [List.cons_append, grokRun] using ih _ _ _
      | malformed => simpa only [List.cons_append, grokRun] using ih _ _ _
      | doneSentinel => rfl
      | chunk d =>
          simp only [List.cons_append, grokRun, List.append_eq]
          rw [ih]

lemma openaiRun_malformed (pre : List OAILine) : ∀ (fAcc : Str)
    (post : List OAILine),
    openaiRun fAcc (pre ++ .malformed :: post) =
      openaiRun fAcc (pre ++ post) := by
  induction pre with
  | nil => intro fAcc post; rfl
  | cons l rest ih =>
      intro fAcc post
      cases l with
      | noData => simpa only [List.cons_append, openaiRun] using ih _ _
      | malformed => simpa only [List.cons_append, openaiRun] using ih _ _
      | doneSentinel => rfl
      | chunk d =>
          cases hc : d.content with
          | none => simpa only [List.cons_append, openaiRun, hc] using ih _ _
          | some c =>
              by_cases hce : c = []
              · subst hce
                simpa only [List.cons_append, openaiRun, hc, ne_eq,
                  not_true_eq_false, if_false] using ih _ _
              · simp only [List.cons_append, openaiRun, hc, ne_eq, hce,
                  not_false_eq_true, if_true, List.append_eq]
                rw [ih]

lemma gemRun_malformed (pre : List GemLine) : ∀ (prev fAcc : Str)
    (post : List GemLine),
    gemRun prev fAcc (pre ++ .malformed :: post) =
      gemRun prev fAcc (pre ++ post) := by
  induction pre with
  | nil => intro prev fAcc post; rfl
  | cons l rest ih =>
      intro prev fAcc post
      cases l with
      | noData => simpa only [List.cons_append, gemRun] using ih _ _ _
      | malformed => simpa only [List.cons_append, gemRun] using ih _ _ _
      | chunk ch =>
          cases hc : ch.candidates with
          | none => simpa only [List.cons_append, gemRun, hc] using ih _ _ _
          | some cand =>
              by_cases hf : pyTruthy cand.finishReason
              · simp only [List.cons_append, gemRun, hc, hf, if_true]
              · simp only [List.cons_append, gemRun, hc, hf, if_false,
                  List.append_eq]
                rw [ih]

/-- Claim C7: an upstream line whose payload is not valid JSON is swallowed
and skipped on all three provider branches: it produces no StreamEvent,
does not terminate the stream, and the run continues exactly as if the
line were absent. -/
theorem malformed_line_skipped :
    (∀ (pre post : List OAILine) (rAcc fAcc : Str),
       grokRun rAcc fAcc (pre ++ .malformed :: post) =
         grokRun rAcc fAcc (pre ++ post)) ∧
    (∀ (pre post : List OAILine) (fAcc : Str),
       openaiRun fAcc (pre ++ .malformed :: post) =
         openaiRun fAcc (pre ++ post)) ∧
    (∀ (pre post : List GemLine) (prev fAcc : Str),
       gemRun prev fAcc (pre ++ .malformed :: post) =
         gemRun prev fAcc (pre ++ post)) :=
  ⟨fun pre post rAcc fAcc => grokRun_malformed pre rAcc fAcc post,
   fun pre post fAcc => openaiRun_malformed pre fAcc post,
   fun pre post prev fAcc => gemRun_malformed pre prev fAcc post⟩

/-! ### Grok reasoning delivery (C10) -/

/-- The events one Grok chunk's delta contributes (lines 542-548). -/
def deltaEvents (d : OAIDelta) : List StreamEvent :=
  (match d.reasoning with
   | some r => if r ≠ [] then [.reasoning r] else []
   | none => []) ++
  (match d.content with
   | some c => if c ≠ [] then [.content c] else []
   | none => [])

/-- The reasoning text one chunk appends to reasoning_content. -/
def deltaR (d : OAIDelta) : Str := d.reasoning.getD []

/-- The content text one chunk appends to full_response. -/
def deltaC (d : OAIDelta) : Str := d.content.getD []

/-- reasoning_content if reasoning_content else None (line 535). -/
def optStr (r : Str) : Option Str := if r = [] then none else some r

lemma grokRun_closed (cs : List OAIDelta) : ∀ (rAcc fAcc : Str),
    grokRun rAcc fAcc (cs.map .chunk ++ [.doneSentinel]) =
      (cs.flatMap deltaEvents ++
         [.grokDone (optStr (rAcc ++ (cs.map deltaR).flatten))],
       fAcc ++ (cs.map deltaC).flatten) := by
  induction cs with
  | nil => intro rAcc fAcc; simp [grokRun, optStr]
  | cons d rest ih =>
      intro rAcc fAcc
      cases hr : d.reasoning with
      | none =>
          cases hc : d.content with
          | none =>
              simp [grokRun, hr, hc, ih, deltaEvents, deltaR, deltaC,
                List.append_assoc]
          | some c =>
              by_cases hce : c = [] <;>
                simp [grokRun, hr, hc, hce, ih, deltaEvents, deltaR, deltaC,
                  List.append_assoc]
      | some r =>
          cases hc : d.content with
          | none =>
              by_cases hre : r = [] <;>
                simp [grokRun, hr, hc, hre, ih, deltaEvents, deltaR, deltaC,
                  List.append_assoc]
          | some c =>
              by_cases hre : r = [] <;> by_cases hce : c = [] <;>
                simp [grokRun, hr, hc, hre, hce, ih, deltaEvents, deltaR,
                  deltaC, List.append_assoc]

lemma filterMap_flatMap {α β γ : Type} (f : β → Option γ) (g : α → List β)
    (l : List α) :
    (l.flatMap g).filterMap f = l.flatMap (fun a => (g a).filterMap f) := by
  induction l with
  | nil => rfl
  | cons a rest ih => simp [List.flatMap_cons, List.filterMap_append, ih]

/-- The nonempty reasoning payloads of a chunk sequence, in order. -/
def reasoningPieces (cs : List OAIDelta) : List Str :=
  cs.flatMap (fun d =>
    match d.reasoning with
    | some r => if r ≠ [] then [r] else []
    | none => [])

/-- Claim C10: on the Grok streaming branch, each nonempty reasoning delta
is forwarded incrementally as its own StreamEvent, and the terminal
done=true event carries the concatenation of all reasoning deltas seen —
or null when no reasoning was streamed — so reasoning is delivered both as
deltas and in full on the terminal event. -/
lemma deltaEvents_filterMap_reasoning (d : OAIDelta) :
    (deltaEvents d).filterMap StreamEvent.reasoningOf =
      (match d.reasoning with
       | some r => if r ≠ [] then [r] else []
       | none => []) := by
  cases hr : d.reasoning with
  | none =>
      cases hc : d.content with
      | none => simp [deltaEvents, hr, hc]
      | some c =>
          by_cases hce : c = [] <;>
            simp [deltaEvents, hr, hc, hce, StreamEvent.reasoningOf]
  | some r =>
      cases hc : d.content with
      | none =>
          by_cases hre : r = [] <;>
            simp [deltaEvents, hr, hc, hre, StreamEvent.reasoningOf]
      | some c =>
          by_cases hre : r = [] <;> by_cases hce : c = [] <;>
            simp [deltaEvents, hr, hc, hre, hce, StreamEvent.reasoningOf]

lemma reasoningPieces_flatten (cs : List OAIDelta) :
    (reasoningPieces cs).flatten = (cs.map deltaR).flatten := by
  induction cs with
  | nil => rfl
  | cons d rest ih =>
      have hp : (match d.reasoning with
          | some r => if r ≠ [] then [r] else []
          | none => ([] : List Str)).flatten = deltaR d := by
        cases hr : d.reasoning with
        | none => simp [deltaR, hr]
        | some r => by_cases hre : r = [] <;> simp [deltaR, hr, hre]
      calc (reasoningPieces (d :: rest)).flatten
          = (match d.reasoning with
             | some r => if r ≠ [] then [r] else []
             | none => ([] : List Str)).flatten ++
              (reasoningPieces rest).flatten := by
            simp [reasoningPieces, List.flatMap_cons, List.flatten_append]
        _ = deltaR d ++ ((rest.map deltaR)).flatten := by rw [hp, ih]
        _ = ((d :: rest).map deltaR).flatten := by simp

/-- Claim C10: on the Grok streaming branch, each nonempty reasoning delta
is forwarded incrementally as its own StreamEvent, and the terminal
done=true event carries the concatenation of all reasoning deltas seen —
or null when no reasoning was streamed — so reasoning is delivered both as
deltas and in full on the terminal event. -/
theorem grok_reasoning_delivery (cs : List OAIDelta) :
    ((grokRun [] [] (cs.map .chunk ++ [.doneSentinel])).1.filterMap
        StreamEvent.reasoningOf = reasoningPieces cs) ∧
    ((grokRun [] [] (cs.map .chunk ++ [.doneSentinel])).1.getLast? =
        some (.grokDone (optStr (reasoningPieces cs).flatten))) := by
  rw [grokRun_closed cs [] []]
  constructor
  · rw [List.filterMap_append, filterMap_flatMap]
    simp only [List.filterMap_cons, List.filterMap_nil,
      StreamEvent.reasoningOf, List.append_nil]
    simp only [deltaEvents_filterMap_reasoning]
    rfl
  · rw [List.getLast?_concat, reasoningPieces_flatten, List.nil_append]

/-! ### Gemini cumulative-diff streaming (C1) -/

/-- A sequence of well-shaped Gemini frames carrying cumulative texts and
no finishReason. -/
def linesOfTexts (ts : List Str) : List GemLine :=
  ts.map (fun t => .chunk ⟨some ⟨t, none⟩⟩)

/-- The concatenation of the content deltas of an event sequence. -/
def emittedText (evs : List StreamEvent) : Str :=
  (evs.filterMap StreamEvent.contentOf).flatten

lemma gemRun_emitted (lines : List GemLine) : ∀ (prev fAcc : Str),
    (gemRun prev fAcc lines).2 =
      fAcc ++ emittedText (gemRun prev fAcc lines).1 := by
  induction lines with
  | nil => intro prev fAcc; simp [gemRun, emittedText]
  | cons l rest ih =>
      intro prev fAcc
      cases l with
      | noData => simpa only [gemRun] using ih prev fAcc
      | malformed => simpa only [gemRun] using ih prev fAcc
      | chunk ch =>
          cases hc : ch.candidates with
          | none => simpa only [gemRun, hc] using ih prev fAcc
          | some cand =>
              by_cases hf : pyTruthy cand.finishReason <;>
              by_cases hcond : cand.text ≠ [] ∧ cand.text ≠ prev <;>
              by_cases hdn : cand.text.drop prev.length ≠ [] <;>
              simp [gemRun, hc, hf, hcond, hdn, emittedText,
                List.filterMap_append, List.flatten_append,
                StreamEvent.contentOf, ih, List.append_assoc]

lemma chain_last_isPre (ts : List Str) : ∀ (t : Str),
    List.Chain' (· <+: ·) (t :: ts) → t <+: ts.getLastD t := by
  induction ts with
  | nil => intro t _; simp
  | cons u rest ih =>
      intro t h
      rw [List.getLastD_cons]
      exact ((List.chain'_cons.mp h).1).trans (ih u (List.chain'_cons.mp h).2)

lemma gemRun_chain (ts : List Str) : ∀ (prev fAcc : Str),
    List.Chain' (· <+: ·) (prev :: ts) →
    (gemRun prev fAcc (linesOfTexts ts)).2 =
      fAcc ++ (ts.getLastD prev).drop prev.length := by
  induction ts with
  | nil =>
      intro prev fAcc _
      simp [gemRun, linesOfTexts, List.drop_length]
  | cons t rest ih =>
      intro prev fAcc h
      obtain ⟨hpt, hrest⟩ := List.chain'_cons.mp h
      rw [List.getLastD_cons]
      by_cases hne : t = prev
      · subst hne
        have hcond : ¬(t ≠ [] ∧ t ≠ t) := by simp
        simp only [linesOfTexts, List.map_cons, gemRun, hcond, if_false,
          pyTruthy, Bool.false_eq_true, List.nil_append]
        simpa [linesOfTexts] using ih t fAcc hrest
      · have ht : t ≠ [] := by
          intro he
          subst he
          exact hne ((List.prefix_nil.mp hpt).symm)
        obtain ⟨v, hv⟩ := hpt
        have hvne : v ≠ [] := by
          intro he
          subst he
          simp only [List.append_nil] at hv
          exact hne hv.symm
        have hdrop : t.drop prev.length = v := by
          rw [← hv, List.drop_left]
        have hdn : t.drop prev.length ≠ [] := by rw [hdrop]; exact hvne
        have hcond : t ≠ [] ∧ t ≠ prev := ⟨ht, hne⟩
        obtain ⟨w, hw⟩ := chain_last_isPre rest t hrest
        simp only [linesOfTexts, List.map_cons, gemRun, pyTruthy,
          Bool.false_eq_true, if_false]
        rw [if_pos hcond, if_pos hdn]
        dsimp only
        have hrec := ih t (fAcc ++ t.drop prev.length) hrest
        simp only [linesOfTexts] at hrec
        rw [hrec, ← hw, List.drop_left, hdrop]
        have : prev ++ v ++ w = prev ++ (v ++ w) := by
          rw [List.append_assoc]
        rw [← hv, this, List.drop_left, List.append_assoc]

/-- Claim C1: on the Gemini streaming branch, each upstream frame carries
the full cumulative text and the orchestrator emits only the suffix past
the previously seen text: whenever each frame extends the previous one,
the concatenation of the emitted content deltas equals the final
cumulative text, and the frames ["Hi", "Hi there", "Hi there!"] yield
exactly the deltas ["Hi", " there", "!"]. -/
theorem gemini_cumulative_diff (ts : List Str)
    (h : List.Chain' (· <+: ·) ts) :
    emittedText (gemRun [] [] (linesOfTexts ts)).1 = ts.getLastD [] ∧
    (gemRun [] [] (linesOfTexts
        [str "Hi", str "Hi there", str "Hi there!"])).1.filterMap
      StreamEvent.contentOf = [str "Hi", str " there", str "!"] := by
  constructor
  · have h0 : List.Chain' (· <+: ·) (([] : Str) :: ts) := by
      cases ts with
      | nil => simp
      | cons t ts' => exact List.chain'_cons.mpr ⟨List.nil_prefix, h⟩
    have h1 := gemRun_chain ts [] [] h0
    have h2 := gemRun_emitted (linesOfTexts ts) [] []
    rw [h1] at h2
    simpa using h2.symm
  · decide

/-- Witness for C1 at the concrete frame sequence of the claim. -/
theorem gemini_cumulative_diff_witness :
    emittedText (gemRun [] [] (linesOfTexts
        [str "Hi", str "Hi there", str "Hi there!"])).1 =
      [str "Hi", str "Hi there", str "Hi there!"].getLastD [] ∧
    (gemRun [] [] (linesOfTexts
        [str "Hi", str "Hi there", str "Hi there!"])).1.filterMap
      StreamEvent.contentOf = [str "Hi", str " there", str "!"] :=
  gemini_cumulative_diff [str "Hi", str "Hi there", str "Hi there!"]
    (by
      refine List.chain'_cons.mpr ⟨⟨str " there", by decide⟩, ?_⟩
      exact List.chain'_cons.mpr
        ⟨⟨str "!", by decide⟩, List.chain'_singleton _⟩)

/-! ### Terminality of done events (C2) -/

/-- Events with done=true occur only in terminal position. -/
def donesOnlyAtEnd (evs : List StreamEvent) : Prop :=
  ∀ (i : Nat) (h : i < evs.length),
    (evs.get ⟨i, h⟩).done = true → i + 1 = evs.length

lemma doae_nil : donesOnlyAtEnd [] := by
  intro i h
  simp at h

lemma doae_single (e : StreamEvent) : donesOnlyAtEnd [e] := by
  intro i h _
  simp only [List.length_singleton] at h ⊢
  omega

lemma doae_cons {e : StreamEvent} {l : List StreamEvent}
    (hd : e.done = false) (h : donesOnlyAtEnd l) :
    donesOnlyAtEnd (e :: l) := by
  intro i hi hdone
  cases i with
  | zero =>
      have hge : e.done = true := hdone
      rw [hd] at hge
      cases hge
  | succ j =>
      have hj : j < l.length := by
        simp only [List.length_cons] at hi
        omega
      have h2 := h j hj hdone
      simp only [List.length_cons]
      omega

lemma doae_append_false {l1 l2 : List StreamEvent}
    (h1 : ∀ e ∈ l1, e.done = false) (h2 : donesOnlyAtEnd l2) :
    donesOnlyAtEnd (l1 ++ l2) := by
  induction l1 with
  | nil => simpa using h2
  | cons e rest ih =>
      simp only [List.cons_append]
      exact doae_cons (h1 e (by simp)) (ih fun x hx => h1 x (by simp [hx]))

lemma doae_grokRun (lines : List OAILine) : ∀ (rAcc fAcc : Str),
    donesOnlyAtEnd (grokRun rAcc fAcc lines).1 := by
  induction lines with
  | nil => intro rAcc fAcc; exact doae_nil
  | cons l rest ih =>
      intro rAcc fAcc
      cases l with
      | noData => simpa only [grokRun] using ih rAcc fAcc
      | malformed => simpa only [grokRun] using ih rAcc fAcc
      | doneSentinel =>
          simp only [grokRun]
          exact doae_single _
      | chunk d =>
          simp only [grokRun, List.append_assoc]
          refine doae_append_false (fun e he => ?_)
            (doae_append_false (fun e he => ?_) (ih _ _))
          · cases hd : d.reasoning with
            | none => simp [hd] at he
            | some r =>
                by_cases hre : r = []
                · simp [hd, hre] at he
                · simp [hd, hre] at he
                  subst he; rfl
          · cases hd : d.content with
            | none => simp [hd] at he
            | some c =>
                by_cases hce : c = []
                · simp [hd, hce] at he
                · simp [hd, hce] at he
                  subst he; rfl

lemma doae_openaiRun (lines : List OAILine) : ∀ (fAcc : Str),
    donesOnlyAtEnd (openaiRun fAcc lines).1 := by
  induction lines with
  | nil => intro fAcc; exact doae_nil
  | cons l rest ih =>
      intro fAcc
      cases l with
      | noData => simpa only [openaiRun] using ih fAcc
      | malformed => simpa only [openaiRun] using ih fAcc
      | doneSentinel =>
          simp only [openaiRun]
          exact doae_single _
      | chunk d =>
          cases hc : d.content with
          | none => simpa only [openaiRun, hc] using ih fAcc
          | some c =>
              by_cases hce : c = []
              · simpa only [openaiRun, hc, hce, ne_eq, not_true_eq_false,
                  if_false] using ih fAcc
              · simp only [openaiRun, hc, ne_eq, hce, not_false_eq_true,
                  if_true]
                exact doae_cons rfl (ih _)

lemma doae_gemRun (lines : List GemLine) : ∀ (prev fAcc : Str),
    donesOnlyAtEnd (gemRun prev fAcc lines).1 := by
  induction lines with
  | nil => intro prev fAcc; exact doae_nil
  | cons l rest ih =>
      intro prev fAcc
      cases l with
      | noData => simpa only [gemRun] using ih prev fAcc
      | malformed => simpa only [gemRun] using ih prev fAcc
      | chunk ch =>
          cases hc : ch.candidates with
          | none => simpa only [gemRun, hc] using ih prev fAcc
          | some cand =>
              by_cases hf : pyTruthy cand.finishReason
              · simp only [gemRun, hc, hf, if_true]
                refine doae_append_false (fun e he => ?_) (doae_single _)
                by_cases hcond : cand.text ≠ [] ∧ cand.text ≠ prev
                · by_cases hdn : cand.text.drop prev.length ≠ []
                  · simp [hcond, hdn] at he
                    subst he; rfl
                  · simp [hcond, hdn] at he
                · simp [hcond] at he
              · simp only [gemRun, hc, hf, if_false]
                refine doae_append_false (fun e he => ?_) (ih _ _)
                by_cases hcond : cand.text ≠ [] ∧ cand.text ≠ prev
                · by_cases hdn : cand.text.drop prev.length ≠ []
                  · simp [hcond, hdn] at he
                    subst he; rfl
                  · simp [hcond, hdn] at he
                · simp [hcond] at he

lemma doae_grokBranch (status : Nat) (oai : List OAILine) :
    donesOnlyAtEnd (grokBranch status oai).1 := by
  unfold grokBranch
  split
  · exact doae_single _
  · exact doae_grokRun oai [] []

lemma doae_openaiBranch (status : Nat) (oai : List OAILine) :
    donesOnlyAtEnd (openaiBranch status oai).1 := by
  unfold openaiBranch
  split
  · exact doae_single _
  · exact doae_openaiRun oai []

lemma doae_geminiBranch (status : Nat) (gem : List GemLine) :
    donesOnlyAtEnd (geminiBranch status gem).1 := by
  unfold geminiBranch
  split
  · exact doae_single _
  · exact doae_gemRun gem [] []

lemma doae_generateEvents (provider : Str) (cid : Option Str) (status : Nat)
    (oai : List OAILine) (gem : List GemLine) :
    donesOnlyAtEnd (generateEvents provider cid status oai gem).1 := by
  simp only [generateEvents]
  refine doae_cons rfl ?_
  split_ifs
  · exact doae_grokBranch status oai
  · exact doae_openaiBranch status oai
  · exact doae_geminiBranch status gem
  · exact doae_nil

/-- Claim C2 counterexample: a Grok stream whose upstream connection ends
without a [DONE] sentinel emits events (the announcement and a content
delta) but no done=true event at all — the client-facing sequence is not
terminated by exactly one done event. -/
theorem stream_without_sentinel_no_done :
    (eventsOf (chat_stream [str "grok"] 0 ⟨str "q", [], none⟩ ⟨0, []⟩ 200
        [.chunk ⟨none, some (str "Hi")⟩] [])).filter
      (fun e => e.done) = [] ∧
    (eventsOf (chat_stream [str "grok"] 0 ⟨str "q", [], none⟩ ⟨0, []⟩ 200
        [.chunk ⟨none, some (str "Hi")⟩] [])).length = 2 := by
  exact ⟨rfl, rfl⟩

/-- Claim C2 (amended): every run of the streaming endpoint emits at most
one event with done=true, and no event is ever emitted after it (error
events, also carrying done=true, are likewise terminal); when the upstream
stream ends without its termination signal, no terminal event is emitted
at all. -/
theorem stream_done_terminal (providers : List Str) (k : Nat)
    (req : ChatRequest) (s : Store) (status : Nat) (oai : List OAILine)
    (gem : List GemLine) :
    donesOnlyAtEnd
      (eventsOf (chat_stream providers k req s status oai gem)) := by
  by_cases hp : providers = []
  · simp only [chat_stream, hp, if_true, eventsOf]
    exact doae_nil
  · simp only [chat_stream, hp, if_false, eventsOf, chat_stream_run]
    exact doae_generateEvents _ _ _ _ _

/-- Witness for the amended C2 at a concrete run. -/
theorem stream_done_terminal_witness :
    donesOnlyAtEnd
      (eventsOf (chat_stream [str "openai"] 0 ⟨str "q", [], none⟩ ⟨0, []⟩
        200 [.chunk ⟨none, some (str "Hello")⟩, .doneSentinel] [])) :=
  stream_done_terminal [str "openai"] 0 ⟨str "q", [], none⟩ ⟨0, []⟩ 200
    [.chunk ⟨none, some (str "Hello")⟩, .doneSentinel] []

/-! ### Search-result formatting and source extraction (C8),
from src/backend/web_search_agent.py -/

/-- Python's str.split on a single separator character. -/
def pySplit (sep : Char) : Str → List Str
  | [] => [[]]
  | c :: rest =>
      if c = sep then [] :: pySplit sep rest
      else
        match pySplit sep rest with
        | s :: ss => (c :: s) :: ss
        | [] => [[c]]

/-- Python's sep.join. -/
def pyJoin (sep : Str) : List Str → Str
  | [] => []
  | [s] => s
  | s :: s' :: rest => s ++ sep ++ pyJoin sep (s' :: rest)

/-- One DuckDuckGo search result as read by _search_with_duckduckgo:
result.get("title"), result.get("body"), result.get("href"). -/
structure SearchResult where
  title : Str
  body : Str
  href : Str
deriving DecidableEq

/-- One formatted entry (web_search_agent.py line 98):
  f"{i}. **{title}**\n   {body}\n   Source: {href}\n". -/
def formatEntry (i : Nat) (r : SearchResult) : Str :=
  natToStr i ++ str ". **" ++ r.title ++ str "**\n   " ++ r.body ++
    str "\n   Source: " ++ r.href ++ str "\n"

/-- The entries for enumerate(results, 1) (web_search_agent.py line 93). -/
def formatEntries (i : Nat) : List SearchResult → List Str
  | [] => []
  | r :: rest => formatEntry i r :: formatEntries (i + 1) rest

/-- The header element (web_search_agent.py line 91). -/
def ddgHeader (today : Str) : Str :=
  str "Search performed on " ++ today ++ str " using DuckDuckGo:\n"

/-- _search_with_duckduckgo's formatting of a result list
(web_search_agent.py lines 84-101), success path. -/
def search_with_duckduckgo (today q : Str) (results : List SearchResult) :
    Str :=
  if results = [] then str "No results found for: " ++ q
  else pyJoin (str "\n") (ddgHeader today :: formatEntries 1 results)

/-- The lazy group of the regex fragment (.+?)\*\*: the shortest nonempty
prefix of the input that is immediately followed by two asterisks. -/
def capTitle : Str → Str → Option Str
  | acc, c :: rest =>
      if acc ≠ [] ∧ c = '*' ∧ rest.head? = some '*' then some acc.reverse
      else capTitle (c :: acc) rest
  | _, [] => none

/-- re.match of the numbered-title pattern (web_search_agent.py line 400):
one or more digits, a dot, one or more whitespace characters, two
asterisks, then the lazily captured title closed by two asterisks. -/
def titleMatch (l : Str) : Option Str :=
  let ds := l.takeWhile Char.isDigit
  let r1 := l.dropWhile Char.isDigit
  if ds = [] then none
  else
    match r1 with
    | '.' :: r2 =>
        let sp := r2.takeWhile isWS
        let r3 := r2.dropWhile isWS
        if sp = [] then none
        else
          match r3 with
          | '*' :: '*' :: r4 => capTitle [] r4
          | _ => none
    | _ => none

/-- re.match of the source pattern (web_search_agent.py line 408):
"Source:", greedily matched whitespace, then the nonempty rest of the line
as group 1 (the greedy star backtracks one character when everything after
the colon is whitespace). -/
def sourceMatch (l : Str) : Option Str :=
  if (str "Source:") <+: l then
    let rest := l.drop 7
    if rest = [] then none
    else some (rest.drop (min (rest.takeWhile isWS).length (rest.length - 1)))
  else none

/-- One extracted source record. -/
structure SourceRec where
  title : Str
  snippet : Str
  url : Str
deriving DecidableEq

/-- The per-line body of the extraction loop (web_search_agent.py lines
396-418): state is the completed records plus the current record. -/
def extractStep (st : List SourceRec × Option SourceRec) (rawLine : Str) :
    List SourceRec × Option SourceRec :=
  let l := pyStrip rawLine
  match titleMatch l with
  | some t => (st.1 ++ st.2.toList, some ⟨t, [], []⟩)
  | none =>
      match st.2 with
      | some cur =>
          match sourceMatch l with
          | some g => (st.1, some ⟨cur.title, cur.snippet, pyStrip g⟩)
          | none =>
              if l ≠ [] ∧ ¬ (str "Source:") <+: l then
                (st.1, some ⟨cur.title,
                  (if cur.snippet = [] then l else cur.snippet ++ ' ' :: l),
                  cur.url⟩)
              else st
      | none => st

/-- The final flush of the extraction loop (lines 421-422): the last
current record is kept only when its url is truthy. -/
def extractFinish (st : List SourceRec × Option SourceRec) :
    List SourceRec :=
  match st.2 with
  | some cur => if cur.url ≠ [] then st.1 ++ [cur] else st.1
  | none => st.1

/-- extract_sources_from_tool_result (web_search_agent.py lines 386-424). -/
def extract_sources_from_tool_result (content : Str) : List SourceRec :=
  extractFinish ((pySplit '\n' content).foldl extractStep ([], none))

/-- The record the round trip is expected to reproduce: title and url
exactly, snippet stripped of surrounding whitespace. -/
def toRec (r : SearchResult) : SourceRec :=
  ⟨r.title, pyStrip r.body, r.href⟩

/-- The side conditions of the amended round-trip claim: the title is
nonempty and free of asterisks and newlines; the body is newline-free and,
once stripped, is neither a numbered-title line nor a Source: line; the
url is nonempty, newline-free and carries no surrounding whitespace. -/
def GoodResult (r : SearchResult) : Prop :=
  r.title ≠ [] ∧ '*' ∉ r.title ∧ '\n' ∉ r.title ∧
  '\n' ∉ r.body ∧ titleMatch (pyStrip r.body) = none ∧
  ¬ (str "Source:") <+: pyStrip r.body ∧
  r.href ≠ [] ∧ '\n' ∉ r.href ∧ pyStrip r.href = r.href

lemma pySplit_ne_nil (sep : Char) (l : Str) : pySplit sep l ≠ [] := by
  induction l with
  | nil => simp [pySplit]
  | cons c rest ih =>
      by_cases hc : c = sep
      · simp [pySplit, hc]
      · simp only [pySplit, hc, if_false]
        cases h : pySplit sep rest with
        | nil => exact absurd h ih
        | cons s ss => simp

lemma pySplit_sep (sep : Char) (xs ys : Str) :
    pySplit sep (xs ++ sep :: ys) = pySplit sep xs ++ pySplit sep ys := by
  induction xs with
  | nil => simp [pySplit]
  | cons c rest ih =>
      by_cases hc : c = sep
      · simp [pySplit, hc, ih]
      · cases h : pySplit sep rest with
        | nil => exact absurd h (pySplit_ne_nil sep rest)
        | cons s ss => simp [pySplit, hc, ih, h]

lemma pySplit_no_sep (sep : Char) (xs : Str) (h : sep ∉ xs) :
    pySplit sep xs = [xs] := by
  induction xs with
  | nil => rfl
  | cons c rest ih =>
      have hc : ¬ c = sep := fun he => h (by simp [he])
      have ht := ih fun hm => h (List.mem_cons_of_mem _ hm)
      simp [pySplit, hc, ht]

lemma dropWhile_append_all (p : Char → Bool) (xs l : Str)
    (h : ∀ c ∈ xs, p c = true) :
    (xs ++ l).dropWhile p = l.dropWhile p := by
  induction xs with
  | nil => rfl
  | cons c rest ih =>
      simp only [List.cons_append, List.dropWhile_cons,
        h c (List.mem_cons_self c rest), if_true]
      exact ih fun x hx => h x (List.mem_cons_of_mem _ hx)

lemma dropWhile_eq_self_of_head (p : Char → Bool) (l : Str)
    (h : ∀ c, l.head? = some c → p c = false) : l.dropWhile p = l := by
  cases l with
  | nil => rfl
  | cons c rest =>
      rw [List.dropWhile_cons, h c rfl]
      simp

lemma head_dropWhile_not (p : Char → Bool) (l : Str) {c : Char}
    (h : (l.dropWhile p).head? = some c) : p c = false := by
  induction l with
  | nil => simp [List.dropWhile_nil] at h
  | cons a rest ih =>
      rw [List.dropWhile_cons] at h
      by_cases hp : p a = true
      · rw [if_pos hp] at h
        exact ih h
      · rw [if_neg hp] at h
        have ha : a = c := by simpa using h
        subst ha
        simpa using hp

lemma dropWhile_append_singleton (p : Char → Bool) (xs : Str) (c : Char)
    (hc : p c = false) : ∃ m, (xs ++ [c]).dropWhile p = m ++ [c] := by
  induction xs with
  | nil => exact ⟨[], by simp [List.dropWhile_cons, hc]⟩
  | cons x rest ih =>
      by_cases hx : p x = true
      · obtain ⟨m, hm⟩ := ih
        exact ⟨m, by simp [List.dropWhile_cons, hx, hm]⟩
      · exact ⟨x :: rest, by simp [List.dropWhile_cons, hx]⟩

lemma pyStrip_eq_self_of (l : Str)
    (h1 : ∀ c, l.head? = some c → isWS c = false)
    (h2 : ∀ c, l.getLast? = some c → isWS c = false) : pyStrip l = l := by
  unfold pyStrip
  rw [dropWhile_eq_self_of_head isWS l h1]
  rw [dropWhile_eq_self_of_head isWS l.reverse
    (fun c hc => h2 c (by rwa [List.head?_reverse] at hc))]
  exact List.reverse_reverse l

lemma pyStrip_ws_append (xs l : Str) (h : ∀ c ∈ xs, isWS c = true) :
    pyStrip (xs ++ l) = pyStrip l := by
  unfold pyStrip
  rw [dropWhile_append_all isWS xs l h]

lemma head_pyStrip_of_head {l : Str} {c : Char} (h : l.head? = some c)
    (hc : isWS c = false) : (pyStrip l).head? = some c := by
  cases l with
  | nil => cases h
  | cons a rest =>
      have ha : a = c := by simpa using h
      subst ha
      unfold pyStrip
      rw [List.dropWhile_cons, hc]
      simp only [Bool.false_eq_true, if_false]
      obtain ⟨m, hm⟩ := dropWhile_append_singleton isWS rest.reverse a hc
      rw [List.reverse_cons, hm, List.reverse_append]
      simp

lemma last_not_ws_of_strip_fixed {l : Str} (h : pyStrip l = l) {c : Char}
    (hc : l.getLast? = some c) : isWS c = false := by
  have h2 : (l.dropWhile isWS).reverse.dropWhile isWS = l.reverse := by
    have h3 := congrArg List.reverse h
    simpa [pyStrip] using h3
  exact head_dropWhile_not isWS (l.dropWhile isWS).reverse
    (by rw [h2, List.head?_reverse]; exact hc)

lemma strip_fixed_dropWhile {l : Str} (h : pyStrip l = l) :
    l.dropWhile isWS = l := by
  have h2 : l.length ≤ (l.dropWhile isWS).length := by
    conv_lhs => rw [← h]
    calc (pyStrip l).length
        = ((l.dropWhile isWS).reverse.dropWhile isWS).length := by
          simp [pyStrip]
      _ ≤ (l.dropWhile isWS).reverse.length :=
          (List.dropWhile_suffix isWS).length_le
      _ = (l.dropWhile isWS).length := List.length_reverse _
  have h3 : (l.dropWhile isWS).length ≤ l.length :=
    (List.dropWhile_suffix isWS).length_le
  exact (List.dropWhile_suffix isWS).eq_of_length (by omega)

lemma head_not_ws_of_strip_fixed {l : Str} (h : pyStrip l = l) {c : Char}
    (hc : l.head? = some c) : isWS c = false := by
  have hdw := strip_fixed_dropWhile h
  cases l with
  | nil => cases hc
  | cons a rest =>
      have ha : a = c := by simpa using hc
      subst ha
      by_contra hws
      have hws' : isWS a = true := by
        cases hb : isWS a
        · exact absurd hb hws
        · rfl
      rw [List.dropWhile_cons, if_pos hws'] at hdw
      have hlen := congrArg List.length hdw
      have hle : (rest.dropWhile isWS).length ≤ rest.length :=
        (List.dropWhile_suffix isWS).length_le
      simp only [List.length_cons] at hlen
      omega

lemma natToStrAux_digits : ∀ (fuel n : Nat), n < fuel →
    ∀ c ∈ natToStrAux fuel n, c.isDigit = true := by
  intro fuel
  induction fuel with
  | zero => intro n h; exact absurd h (Nat.not_lt_zero n)
  | succ fuel ih =>
      intro n hn c hc
      by_cases h10 : n < 10
      · simp only [natToStrAux, h10, if_true, List.mem_singleton] at hc
        subst hc
        interval_cases n <;> decide
      · simp only [natToStrAux, h10, if_false, List.mem_append,
          List.mem_singleton] at hc
        rcases hc with hc | hc
        · have hdiv : n / 10 < fuel := by
            have := Nat.div_lt_self (by omega : 0 < n) (by omega : 1 < 10)
            omega
          exact ih (n / 10) hdiv c hc
        · subst hc
          generalize hg : n % 10 = m
          have hm : m < 10 := hg ▸ Nat.mod_lt _ (by omega)
          interval_cases m <;> decide

lemma natToStr_digits (n : Nat) : ∀ c ∈ natToStr n, c.isDigit = true :=
  natToStrAux_digits (n + 1) n (by omega)

lemma natToStr_ne_nil (n : Nat) : natToStr n ≠ [] := by
  unfold natToStr natToStrAux
  by_cases h : n < 10 <;> simp [h]

lemma newline_not_mem_natToStr (n : Nat) : '\n' ∉ natToStr n := by
  intro h
  exact absurd (natToStr_digits n '\n' h) (by decide)

lemma head_natToStr_digit (n : Nat) :
    ∃ c, (natToStr n).head? = some c ∧ c.isDigit = true := by
  cases h : natToStr n with
  | nil => exact absurd h (natToStr_ne_nil n)
  | cons c rest =>
      refine ⟨c, by simp, natToStr_digits n c ?_⟩
      rw [h]
      exact List.mem_cons_self c rest

lemma takeWhile_drop_boundary (p : Char → Bool) (xs ys : Str)
    (hall : ∀ c ∈ xs, p c = true)
    (hstop : ∀ c, ys.head? = some c → p c = false) :
    (xs ++ ys).takeWhile p = xs ∧ (xs ++ ys).dropWhile p = ys := by
  induction xs with
  | nil =>
      rw [List.nil_append]
      constructor
      · cases ys with
        | nil => rfl
        | cons c rest =>
            rw [List.takeWhile_cons, hstop c rfl]
            simp
      · exact dropWhile_eq_self_of_head p ys hstop
  | cons c rest ih =>
      obtain ⟨ht, hd⟩ := ih fun x hx => hall x (List.mem_cons_of_mem _ hx)
      constructor
      · simp only [List.cons_append, List.takeWhile_cons,
          hall c (List.mem_cons_self c rest), if_true, ht]
      · simp only [List.cons_append, List.dropWhile_cons,
          hall c (List.mem_cons_self c rest), if_true, hd]

lemma capTitle_clean : ∀ (t acc rest : Str),
    (∀ c ∈ t, c ≠ '*') → (acc = [] → t ≠ []) →
    capTitle acc (t ++ '*' :: '*' :: rest) = some (acc.reverse ++ t) := by
  intro t
  induction t with
  | nil =>
      intro acc rest _ hne
      have hacc : acc ≠ [] := fun h => (hne h) rfl
      simp [capTitle, hacc]
  | cons c t' ih =>
      intro acc rest hstar hne
      have hc : c ≠ '*' := hstar c (List.mem_cons_self c t')
      simp only [List.cons_append, capTitle, hc, false_and, and_false,
        ne_eq, if_false, List.append_eq]
      rw [ih (c :: acc) rest
        (fun x hx => hstar x (List.mem_cons_of_mem _ hx)) (by simp)]
      simp [List.reverse_cons, List.append_assoc]

lemma titleMatch_entry (i : Nat) (t : Str) (hne : t ≠ [])
    (hstar : '*' ∉ t) :
    titleMatch (natToStr i ++ str ". **" ++ t ++ str "**") = some t := by
  have hshape : natToStr i ++ str ". **" ++ t ++ str "**" =
      natToStr i ++ '.' :: ' ' :: '*' :: '*' :: (t ++ '*' :: '*' :: []) := by
    rw [List.append_assoc, List.append_assoc]
    rfl
  rw [hshape]
  obtain ⟨hT, hD⟩ := takeWhile_drop_boundary Char.isDigit (natToStr i)
    ('.' :: ' ' :: '*' :: '*' :: (t ++ '*' :: '*' :: []))
    (natToStr_digits i)
    (fun c hc => by
      have h2 : '.' = c := by simpa using hc
      subst h2
      decide)
  simp only [titleMatch, hT, hD]
  rw [if_neg (natToStr_ne_nil i)]
  show capTitle [] (t ++ '*' :: '*' :: []) = some t
  rw [capTitle_clean t [] []
    (fun c hc he => hstar (he ▸ hc)) (fun _ => hne)]
  simp

lemma titleMatch_none_of_head {l : Str} {c : Char} (h : l.head? = some c)
    (hd : c.isDigit = false) : titleMatch l = none := by
  cases l with
  | nil => cases h
  | cons a rest =>
      have ha : a = c := by simpa using h
      subst ha
      simp [titleMatch, List.takeWhile_cons, hd]

lemma sourceMatch_not_pre {l : Str} (h : ¬ (str "Source:") <+: l) :
    sourceMatch l = none := by
  simp [sourceMatch, h]

lemma sourceMatch_entry (u : Str) (hne : u ≠ [])
    (hhead : ∀ c, u.head? = some c → isWS c = false) :
    sourceMatch (str "Source: " ++ u) = some u := by
  have hshape : str "Source: " ++ u = str "Source:" ++ (' ' :: u) := rfl
  rw [hshape]
  have hpre : (str "Source:") <+: str "Source:" ++ (' ' :: u) :=
    ⟨' ' :: u, rfl⟩
  have hdrop : (str "Source:" ++ (' ' :: u)).drop 7 = ' ' :: u := by
    have h7 : (7 : Nat) = (str "Source:").length := rfl
    rw [h7, List.drop_left]
  simp only [sourceMatch, hpre, if_true, hdrop]
  have htw : (' ' :: u).takeWhile isWS = [' '] := by
    rw [List.takeWhile_cons]
    simp only [show isWS ' ' = true from rfl, if_true]
    cases u with
    | nil => rfl
    | cons c rest =>
        rw [List.takeWhile_cons, hhead c rfl]
        simp
  have h1 : 1 ≤ u.length := by
    cases u with
    | nil => exact absurd rfl hne
    | cons _ _ => simp
  rw [htw]
  have hmin : min (List.length ([' '] : Str)) ((' ' :: u).length - 1) = 1 := by
    simp only [List.length_singleton, List.length_cons, List.length_nil,
      Nat.add_sub_cancel]
    omega
  rw [if_neg (List.cons_ne_nil ' ' u), hmin]
  rfl

/-- The four lines one formatted entry contributes once the formatted text
is split on newlines: the numbered title line, the indented body line, the
indented source line, and the blank separator. -/
def entryLines (i : Nat) (r : SearchResult) : List Str :=
  [natToStr i ++ str ". **" ++ r.title ++ str "**",
   str "   " ++ r.body,
   str "   Source: " ++ r.href,
   []]

/-- The lines of all entries, numbered from i. -/
def entryLinesAll (i : Nat) : List SearchResult → List Str
  | [] => []
  | r :: rest => entryLines i r ++ entryLinesAll (i + 1) rest

lemma formatEntry_decomp (i : Nat) (r : SearchResult) :
    formatEntry i r =
      (natToStr i ++ str ". **" ++ r.title ++ str "**") ++ '\n' ::
        ((str "   " ++ r.body) ++ '\n' ::
          ((str "   Source: " ++ r.href) ++ '\n' :: [])) := by
  simp only [formatEntry, List.append_assoc]
  rfl

lemma pySplit_decomp3 (A B C X : Str) (hA : '\n' ∉ A) (hB : '\n' ∉ B)
    (hC : '\n' ∉ C) :
    pySplit '\n' ((A ++ '\n' :: (B ++ '\n' :: (C ++ '\n' :: []))) ++
      '\n' :: X) = [A, B, C, []] ++ pySplit '\n' X := by
  have h1 : (A ++ '\n' :: (B ++ '\n' :: (C ++ '\n' :: []))) ++ '\n' :: X =
      A ++ '\n' :: (B ++ '\n' :: (C ++ '\n' :: ('\n' :: X))) := by
    simp
  rw [h1, pySplit_sep '\n' A, pySplit_sep '\n' B, pySplit_sep '\n' C]
  rw [pySplit_no_sep _ _ hA, pySplit_no_sep _ _ hB, pySplit_no_sep _ _ hC]
  simp [pySplit]

lemma pySplit_decomp3_last (A B C : Str) (hA : '\n' ∉ A) (hB : '\n' ∉ B)
    (hC : '\n' ∉ C) :
    pySplit '\n' (A ++ '\n' :: (B ++ '\n' :: (C ++ '\n' :: []))) =
      [A, B, C, []] := by
  rw [pySplit_sep '\n' A, pySplit_sep '\n' B, pySplit_sep '\n' C]
  rw [pySplit_no_sep _ _ hA, pySplit_no_sep _ _ hB, pySplit_no_sep _ _ hC]
  simp [pySplit]

lemma pySplit_entry_append (i : Nat) (r : SearchResult) (X : Str)
    (hA : '\n' ∉ natToStr i ++ str ". **" ++ r.title ++ str "**")
    (hB : '\n' ∉ str "   " ++ r.body)
    (hC : '\n' ∉ str "   Source: " ++ r.href) :
    pySplit '\n' (formatEntry i r ++ '\n' :: X) =
      entryLines i r ++ pySplit '\n' X := by
  rw [formatEntry_decomp, pySplit_decomp3 _ _ _ _ hA hB hC]
  rfl

lemma pySplit_entry_last (i : Nat) (r : SearchResult)
    (hA : '\n' ∉ natToStr i ++ str ". **" ++ r.title ++ str "**")
    (hB : '\n' ∉ str "   " ++ r.body)
    (hC : '\n' ∉ str "   Source: " ++ r.href) :
    pySplit '\n' (formatEntry i r) = entryLines i r := by
  rw [formatEntry_decomp, pySplit_decomp3_last _ _ _ hA hB hC]
  rfl

lemma pySplit_formatEntries (rs : List SearchResult) : ∀ (i : Nat),
    (∀ r ∈ rs, '\n' ∉ r.title ∧ '\n' ∉ r.body ∧ '\n' ∉ r.href) →
    rs ≠ [] →
    pySplit '\n' (pyJoin (str "\n") (formatEntries i rs)) =
      entryLinesAll i rs := by
  induction rs with
  | nil => intro i _ h; exact absurd rfl h
  | cons r rest ih =>
      intro i hno _
      obtain ⟨ht1, ht2, ht3⟩ := hno r (List.mem_cons_self r rest)
      have hA : '\n' ∉ natToStr i ++ str ". **" ++ r.title ++ str "**" := by
        intro hm
        simp only [List.mem_append] at hm
        rcases hm with ((hm | hm) | hm) | hm
        · exact newline_not_mem_natToStr i hm
        · exact absurd hm (by decide)
        · exact ht1 hm
        · exact absurd hm (by decide)
      have hB : '\n' ∉ str "   " ++ r.body := by
        intro hm
        rcases List.mem_append.mp hm with hm | hm
        · exact absurd hm (by decide)
        · exact ht2 hm
      have hC : '\n' ∉ str "   Source: " ++ r.href := by
        intro hm
        rcases List.mem_append.mp hm with hm | hm
        · exact absurd hm (by decide)
        · exact ht3 hm
      cases rest with
      | nil =>
          show pySplit '\n' (formatEntry i r) = entryLinesAll i [r]
          rw [pySplit_entry_last i r hA hB hC]
          simp [entryLinesAll]
      | cons r2 rest2 =>
          have hjoin : pyJoin (str "\n") (formatEntries i (r :: r2 :: rest2)) =
              formatEntry i r ++ '\n' ::
                pyJoin (str "\n") (formatEntries (i + 1) (r2 :: rest2)) := by
            show formatEntry i r ++ str "\n" ++ _ = _
            rw [List.append_assoc]
            rfl
          rw [hjoin, pySplit_entry_append i r _ hA hB hC]
          rw [ih (i + 1) (fun x hx => hno x (List.mem_cons_of_mem _ hx))
            (by simp)]
          rfl

lemma pySplit_search_format (today q : Str) (rs : List SearchResult)
    (htoday : '\n' ∉ today)
    (hno : ∀ r ∈ rs, '\n' ∉ r.title ∧ '\n' ∉ r.body ∧ '\n' ∉ r.href)
    (hne : rs ≠ []) :
    pySplit '\n' (search_with_duckduckgo today q rs) =
      (str "Search performed on " ++ today ++ str " using DuckDuckGo:") ::
        [] :: entryLinesAll 1 rs := by
  have hH : '\n' ∉ str "Search performed on " ++ today ++
      str " using DuckDuckGo:" := by
    intro hm
    simp only [List.mem_append] at hm
    rcases hm with (hm | hm) | hm
    · exact absurd hm (by decide)
    · exact htoday hm
    · exact absurd hm (by decide)
  unfold search_with_duckduckgo
  rw [if_neg hne]
  cases rs with
  | nil => exact absurd rfl hne
  | cons r rest =>
      have hjoin : pyJoin (str "\n") (ddgHeader today ::
          formatEntries 1 (r :: rest)) =
          ddgHeader today ++ '\n' ::
            pyJoin (str "\n") (formatEntries 1 (r :: rest)) := by
        show ddgHeader today ++ str "\n" ++ _ = _
        rw [List.append_assoc]
        rfl
      rw [hjoin]
      have hdec : ddgHeader today ++ '\n' ::
          pyJoin (str "\n") (formatEntries 1 (r :: rest)) =
          (str "Search performed on " ++ today ++
            str " using DuckDuckGo:") ++ '\n' ::
            ('\n' :: pyJoin (str "\n") (formatEntries 1 (r :: rest))) := by
        unfold ddgHeader
        rw [show str " using DuckDuckGo:\n" =
          str " using DuckDuckGo:" ++ ['\n'] from rfl]
        simp [List.append_assoc]
      rw [hdec, pySplit_sep, pySplit_no_sep _ _ hH]
      rw [show pySplit '\n' ('\n' ::
          pyJoin (str "\n") (formatEntries 1 (r :: rest))) =
          [] :: pySplit '\n'
            (pyJoin (str "\n") (formatEntries 1 (r :: rest))) from by
        simp [pySplit]]
      rw [pySplit_formatEntries (r :: rest) 1 hno (by simp)]
      rfl

instance : DecidablePred GoodResult := fun r =>
  inferInstanceAs (Decidable (r.title ≠ [] ∧ '*' ∉ r.title ∧
    '\n' ∉ r.title ∧ '\n' ∉ r.body ∧ titleMatch (pyStrip r.body) = none ∧
    ¬ (str "Source:") <+: pyStrip r.body ∧
    r.href ≠ [] ∧ '\n' ∉ r.href ∧ pyStrip r.href = r.href))

lemma digit_not_ws {c : Char} (h : c.isDigit = true) : isWS c = false := by
  cases hb : isWS c
  · rfl
  · exfalso
    simp only [isWS, Bool.or_eq_true, decide_eq_true_eq] at hb
    rcases hb with ((((h1 | h1) | h1) | h1) | h1) | h1 <;> subst h1 <;>
      exact absurd h (by decide)

lemma extract_title_line (i : Nat) (r : SearchResult) (htne : r.title ≠ [])
    (hstar : '*' ∉ r.title) (acc : List SourceRec)
    (cur : Option SourceRec) :
    extractStep (acc, cur)
      (natToStr i ++ str ". **" ++ r.title ++ str "**") =
      (acc ++ cur.toList, some ⟨r.title, [], []⟩) := by
  have hstrip : pyStrip (natToStr i ++ str ". **" ++ r.title ++ str "**") =
      natToStr i ++ str ". **" ++ r.title ++ str "**" := by
    apply pyStrip_eq_self_of
    · intro c hc
      obtain ⟨d, hd, hdig⟩ := head_natToStr_digit i
      have hh : (natToStr i ++ str ". **" ++ r.title ++ str "**").head? =
          some d := by
        rw [List.append_assoc, List.append_assoc,
          List.head?_append_of_ne_nil _ (natToStr_ne_nil i)]
        exact hd
      rw [hh] at hc
      have hdc : d = c := by simpa using hc
      subst hdc
      exact digit_not_ws hdig
    · intro c hc
      have hsh : natToStr i ++ str ". **" ++ r.title ++ str "**" =
          (natToStr i ++ str ". **" ++ r.title ++ ['*']) ++ ['*'] := by
        simp only [List.append_assoc]
        rfl
      rw [hsh, List.getLast?_concat] at hc
      have hsc : '*' = c := by simpa using hc
      subst hsc
      rfl
  simp only [extractStep, hstrip,
    titleMatch_entry i r.title htne hstar]

lemma extract_body_line (r : SearchResult)
    (hbt : titleMatch (pyStrip r.body) = none)
    (hbs : ¬ (str "Source:") <+: pyStrip r.body)
    (acc : List SourceRec) (t : Str) :
    extractStep (acc, some ⟨t, [], []⟩) (str "   " ++ r.body) =
      (acc, some ⟨t, pyStrip r.body, []⟩) := by
  have hstrip : pyStrip (str "   " ++ r.body) = pyStrip r.body :=
    pyStrip_ws_append (str "   ") r.body (by decide)
  simp only [extractStep, hstrip, hbt, sourceMatch_not_pre hbs]
  by_cases hb : pyStrip r.body = []
  · rw [if_neg (by simp [hb])]
    rw [hb]
  · rw [if_pos ⟨hb, hbs⟩]
    simp

lemma extract_source_line (r : SearchResult) (hhne : r.href ≠ [])
    (hhfix : pyStrip r.href = r.href) (acc : List SourceRec) (t s : Str) :
    extractStep (acc, some ⟨t, s, []⟩) (str "   Source: " ++ r.href) =
      (acc, some ⟨t, s, r.href⟩) := by
  have hsp : str "   Source: " ++ r.href =
      str "   " ++ (str "Source: " ++ r.href) := by
    rw [show str "   Source: " = str "   " ++ str "Source: " from rfl,
      List.append_assoc]
  have hheadS : (str "Source: " ++ r.href).head? = some 'S' := by
    rw [List.head?_append_of_ne_nil _ (by decide)]
    rfl
  have hlastfact : ∀ c, (str "Source: " ++ r.href).getLast? = some c →
      isWS c = false := by
    intro c hc
    rcases List.eq_nil_or_concat r.href with he | ⟨ys, z, hz⟩
    · exact absurd he hhne
    · rw [List.concat_eq_append] at hz
      have hzl : r.href.getLast? = some z := by
        rw [hz]
        exact List.getLast?_concat ys
      have hcl : (str "Source: " ++ r.href).getLast? = some z := by
        rw [hz, ← List.append_assoc]
        exact List.getLast?_concat _
      rw [hcl] at hc
      have hzc : z = c := by simpa using hc
      subst hzc
      exact last_not_ws_of_strip_fixed hhfix hzl
  have hstrip : pyStrip (str "   Source: " ++ r.href) =
      str "Source: " ++ r.href := by
    rw [hsp, pyStrip_ws_append _ _ (by decide)]
    apply pyStrip_eq_self_of
    · intro c hc
      rw [hheadS] at hc
      have h2 : 'S' = c := by simpa using hc
      subst h2
      rfl
    · exact hlastfact
  have hheadfact : ∀ c, r.href.head? = some c → isWS c = false :=
    fun c hc => head_not_ws_of_strip_fixed hhfix hc
  simp only [extractStep, hstrip,
    titleMatch_none_of_head hheadS (by decide),
    sourceMatch_entry r.href hhne hheadfact, hhfix]

lemma extract_blank_line (acc : List SourceRec) (cur : SourceRec) :
    extractStep (acc, some cur) ([] : Str) = (acc, some cur) := by
  have hns : ¬ (str "Source:") <+: ([] : Str) := by
    rw [List.prefix_nil]
    decide
  simp only [extractStep, sourceMatch_not_pre hns]
  rfl

lemma extractStep_entry (i : Nat) (r : SearchResult) (hr : GoodResult r)
    (acc : List SourceRec) (cur : Option SourceRec) :
    List.foldl extractStep (acc, cur) (entryLines i r) =
      (acc ++ cur.toList, some (toRec r)) := by
  obtain ⟨htne, hstar, _, _, hbt, hbs, hhne, _, hhfix⟩ := hr
  show List.foldl extractStep (acc, cur)
    [natToStr i ++ str ". **" ++ r.title ++ str "**",
     str "   " ++ r.body, str "   Source: " ++ r.href, []] = _
  rw [List.foldl_cons, extract_title_line i r htne hstar acc cur]
  rw [List.foldl_cons, extract_body_line r hbt hbs _ r.title]
  rw [List.foldl_cons, extract_source_line r hhne hhfix _ r.title _]
  rw [List.foldl_cons, extract_blank_line]
  rfl

lemma extract_entries (rs : List SearchResult) : ∀ (i : Nat)
    (acc : List SourceRec) (cur : Option SourceRec),
    (∀ r ∈ rs, GoodResult r) →
    (∀ c, cur = some c → c.url ≠ []) →
    extractFinish
        (List.foldl extractStep (acc, cur) (entryLinesAll i rs)) =
      acc ++ cur.toList ++ rs.map toRec := by
  induction rs with
  | nil =>
      intro i acc cur _ hcur
      simp only [entryLinesAll, List.foldl_nil, List.map_nil,
        List.append_nil]
      cases cur with
      | none => simp [extractFinish]
      | some c => simp [extractFinish, hcur c rfl]
  | cons r rest ih =>
      intro i acc cur hgood hcur
      simp only [entryLinesAll, List.foldl_append]
      rw [extractStep_entry i r (hgood r (List.mem_cons_self r rest)) acc
        cur]
      rw [ih (i + 1) (acc ++ cur.toList) (some (toRec r))
        (fun x hx => hgood x (List.mem_cons_of_mem _ hx))
        (fun c hc => by
          have hcr : toRec r = c := by simpa using hc
          rw [← hcr]
          exact (hgood r (List.mem_cons_self r rest)).2.2.2.2.2.2.1)]
      simp [List.append_assoc]

/-- Claim C8 counterexample: one result whose snippet is the single line
"2. **Fake**" (a legal snippet: the claim constrains only titles and urls)
formats and then extracts to TWO records, not one, and the first record's
url is empty rather than the original — so extraction is not a left
inverse of the formatter under the claim's conditions. -/
theorem extract_sources_not_left_inverse :
    (extract_sources_from_tool_result (search_with_duckduckgo
        (str "January 1, 2025") (str "q")
        [⟨str "T", str "2. **Fake**", str "http://x"⟩])).length = 2 ∧
    extract_sources_from_tool_result (search_with_duckduckgo
        (str "January 1, 2025") (str "q")
        [⟨str "T", str "2. **Fake**", str "http://x"⟩]) =
      [⟨str "T", [], []⟩, ⟨str "Fake", [], str "http://x"⟩] := by
  exact ⟨rfl, rfl⟩

/-- Claim C8 (amended): extract_sources_from_tool_result is a left inverse
of the DuckDuckGo search-result formatter for every list of N results
whose titles are nonempty and free of asterisks and newlines, whose
snippets are newline-free and are neither numbered-title lines nor
Source: lines once stripped, and whose urls are nonempty, newline-free and
carry no surrounding whitespace: formatting then extracting yields exactly
N records with title and url equal to the originals and snippet equal to
the original stripped of surrounding whitespace. -/
theorem extract_sources_left_inverse (today q : Str)
    (rs : List SearchResult) (htoday : '\n' ∉ today) (hq : '\n' ∉ q)
    (hgood : ∀ r ∈ rs, GoodResult r) :
    extract_sources_from_tool_result (search_with_duckduckgo today q rs) =
      rs.map toRec := by
  cases rs with
  | nil =>
      unfold search_with_duckduckgo
      rw [if_pos rfl]
      unfold extract_sources_from_tool_result
      rw [pySplit_no_sep _ _ (by
        intro hm
        rcases List.mem_append.mp hm with hm | hm
        · exact absurd hm (by decide)
        · exact hq hm)]
      simp only [List.foldl_cons, List.foldl_nil]
      have hhead : (str "No results found for: " ++ q).head? = some 'N' := by
        rw [List.head?_append_of_ne_nil _ (by decide)]
        rfl
      have hsh := head_pyStrip_of_head hhead (by decide)
      simp only [extractStep, titleMatch_none_of_head hsh (by decide)]
      rfl
  | cons r rest =>
      have hno : ∀ x ∈ r :: rest,
          '\n' ∉ x.title ∧ '\n' ∉ x.body ∧ '\n' ∉ x.href := by
        intro x hx
        obtain ⟨_, _, h3, h4, _, _, _, h8, _⟩ := hgood x hx
        exact ⟨h3, h4, h8⟩
      unfold extract_sources_from_tool_result
      rw [pySplit_search_format today q (r :: rest) htoday hno (by simp)]
      simp only [List.foldl_cons]
      have hheadS : (str "Search performed on " ++ today ++
          str " using DuckDuckGo:").head? = some 'S' := by
        rw [List.append_assoc, List.head?_append_of_ne_nil _ (by decide)]
        rfl
      have hH : extractStep (([] : List SourceRec), none)
          (str "Search performed on " ++ today ++
            str " using DuckDuckGo:") = ([], none) := by
        simp only [extractStep,
          titleMatch_none_of_head
            (head_pyStrip_of_head hheadS (by decide)) (by decide)]
      have hE : extractStep (([] : List SourceRec), none) ([] : Str) =
          ([], none) := rfl
      rw [hH, hE]
      have := extract_entries (r :: rest) 1 [] none hgood
        (fun c hc => by cases hc)
      simpa using this

/-- Witness for the amended C8 at concrete inputs: two results, one with a
whitespace-padded snippet and one with an empty snippet, both reproduced
(snippets stripped) by extraction. -/
theorem extract_sources_left_inverse_witness :
    extract_sources_from_tool_result (search_with_duckduckgo
        (str "October 12, 2025") (str "diabetes")
        [⟨str "T one", str "  desc one  ", str "http://a"⟩,
         ⟨str "T2", [], str "http://b"⟩]) =
      [(⟨str "T one", str "  desc one  ", str "http://a"⟩ : SearchResult),
       ⟨str "T2", [], str "http://b"⟩].map toRec :=
  extract_sources_left_inverse (str "October 12, 2025") (str "diabetes")
    [⟨str "T one", str "  desc one  ", str "http://a"⟩,
     ⟨str "T2", [], str "http://b"⟩]
    (by decide) (by decide) (by decide)

end Flap
